import Mathlib

set_option maxRecDepth 8192

/-!
Verification of the upload-tracking / polling subsystem and configuration
helpers of the frontend-llm single-page client.

The definitions below are a shallow embedding of the TypeScript source:

* `src/components/FileUploader.tsx` — the `URLUploader` component: status
  normalisation, the process store and its persistence to localStorage,
  the polling tick, and the rendered progress values.
* `src/components/ConfigurationPanel.tsx` — `normalizeCollectionNames`.
* `src/config/appConfig.ts` — the module-load seeding of the default
  top-K setting from localStorage.

JavaScript runtime values coming out of `JSON.parse` are modelled by the
`JVal` inductive.  JavaScript numbers are modelled as exact rationals with
an explicit overflow/underflow clamp to the IEEE-double range where the
code's behaviour depends on finiteness (`Number.isFinite`); rounding of
in-range doubles is not modelled, and no claim below depends on it.
-/

/-- JSON values as produced by `JSON.parse` (and consumed by
`JSON.stringify`).  Object fields keep their textual order; a duplicate key
is resolved by `jGet` taking the last binding, as `JSON.parse` does. -/
inductive JVal where
  | jNull
  | jBool (b : Bool)
  | jNum (q : ℚ)
  | jStr (s : String)
  | jArr (items : List JVal)
  | jObj (fields : List (String × JVal))

/-- Property access `v[k]` on a parsed JSON value: `none` models the
JavaScript `undefined` (absent field, or access on a non-object).  For a
duplicate key the last binding wins, matching `JSON.parse`. -/
def jGet (v : JVal) (k : String) : Option JVal :=
  match v with
  | .jObj fields => go fields none
  | _ => none
where
  go : List (String × JVal) → Option JVal → Option JVal
    | [], acc => acc
    | (key, val) :: rest, acc => go rest (if key = k then some val else acc)

/-- JavaScript truthiness of a JSON value (`Boolean(v)`). -/
def jTruthy : JVal → Bool
  | .jNull => false
  | .jBool b => b
  | .jNum q => decide (q ≠ 0)
  | .jStr s => !s.isEmpty
  | .jArr _ => true
  | .jObj _ => true

/-- String conversion `String(v)` of a JSON value.  Number formatting is
modelled exactly for integers; the decimal rendering of non-integer
numbers and the recursive flattening of nested arrays are approximated
(no claim in this development evaluates those cases). -/
def jsStringOfJVal : JVal → String
  | .jNull => "null"
  | .jBool true => "true"
  | .jBool false => "false"
  | .jNum q =>
      if q.den = 1 then
        (if q.num < 0 then "-" ++ toString q.num.natAbs else toString q.num.natAbs)
      else toString q.num ++ "/" ++ toString q.den
  | .jStr s => s
  | .jObj _ => "[object Object]"
  | .jArr items => String.intercalate "," (items.map elemString)
where
  /-- One level of `Array.prototype.toString` element rendering:
  `null`/`undefined` render empty; nested containers are approximated. -/
  elemString : JVal → String
    | .jNull => ""
    | .jBool true => "true"
    | .jBool false => "false"
    | .jNum q =>
        if q.den = 1 then
          (if q.num < 0 then "-" ++ toString q.num.natAbs else toString q.num.natAbs)
        else toString q.num ++ "/" ++ toString q.den
    | .jStr s => s
    | .jObj _ => "[object Object]"
    | .jArr _ => ""

/-- Characters stripped by JavaScript string trimming and by the
`StringNumericLiteral` grammar: ASCII whitespace, NBSP, BOM, the Unicode
space separators and line separators (the common code points; exotic
`Zs` members behave identically for every claim below). -/
def isJsSpace (c : Char) : Bool :=
  c = ' ' ∨ c = '\t' ∨ c = '\n' ∨ c = '\r' ∨
    c.toNat = 11 ∨ c.toNat = 12 ∨ c.toNat = 160 ∨ c.toNat = 0xFEFF ∨
    c.toNat = 0x1680 ∨ (0x2000 ≤ c.toNat ∧ c.toNat ≤ 0x200A) ∨
    c.toNat = 0x2028 ∨ c.toNat = 0x2029 ∨ c.toNat = 0x202F ∨
    c.toNat = 0x205F ∨ c.toNat = 0x3000

/-- Both-ends trim of a character list under `isJsSpace`. -/
def jsTrimChars (cs : List Char) : List Char :=
  ((cs.dropWhile isJsSpace).reverse.dropWhile isJsSpace).reverse

/-- JavaScript `String.prototype.trim`. -/
def jsTrim (s : String) : String :=
  String.mk (jsTrimChars s.toList)

/-- Result of a JavaScript numeric conversion: `NaN`, an infinity, or a
finite double (modelled as an exact rational). -/
inductive JSNum where
  | nan
  | posInf
  | negInf
  | val (q : ℚ)
deriving DecidableEq, Repr

/-- Clamp an exact rational to the IEEE-double range: magnitudes at or
above `2^1024` overflow to an infinity and positive magnitudes below
`2^(-1075)` underflow to zero, as `Number` conversion does.  Rounding of
in-range values is not modelled. -/
def clampDouble (q : ℚ) : JSNum :=
  if mkRat ((2 ^ 1024 : ℕ) : ℤ) 1 ≤ q then .posInf
  else if q ≤ mkRat (-((2 ^ 1024 : ℕ) : ℤ)) 1 then .negInf
  else if q ≠ 0 ∧ mkRat (-1) (2 ^ 1075) < q ∧ q < mkRat 1 (2 ^ 1075) then .val 0
  else .val q

/-- Decimal digit test. -/
def isDigitCh (c : Char) : Bool :=
  '0' ≤ c ∧ c ≤ '9'

/-- Value of a decimal digit string (most significant first). -/
def natOfDigits (ds : List Char) : ℕ :=
  ds.foldl (fun acc c => acc * 10 + (c.toNat - 48)) 0

/-- Exponent part of the `StringNumericLiteral` grammar: empty means
exponent `0`; otherwise `e`/`E`, an optional sign and a non-empty digit
string; anything else rejects. -/
def parseExponent : List Char → Option ℤ
  | [] => some 0
  | c :: rest =>
    if c = 'e' ∨ c = 'E' then
      match rest with
      | '+' :: ds => if ds ≠ [] ∧ ds.all isDigitCh then some ((natOfDigits ds : ℤ)) else none
      | '-' :: ds => if ds ≠ [] ∧ ds.all isDigitCh then some (-(natOfDigits ds : ℤ)) else none
      | ds => if ds ≠ [] ∧ ds.all isDigitCh then some ((natOfDigits ds : ℤ)) else none
    else none

/-- Unsigned decimal literal `digits [. digits] [exp]`, `. digits [exp]`
or `digits . [exp]`, parsed to a natural mantissa and a decimal exponent
(fraction digits fold into the mantissa, lowering the exponent); `none`
rejects, yielding `NaN` upstream. -/
def parseDecimal (cs : List Char) : Option (ℕ × ℤ) :=
  let intPart := cs.takeWhile isDigitCh
  let rest1 := cs.drop intPart.length
  match rest1 with
  | '.' :: rest2 =>
      let fracPart := rest2.takeWhile isDigitCh
      let rest3 := rest2.drop fracPart.length
      if intPart = [] ∧ fracPart = [] then none
      else
        (parseExponent rest3).map (fun e =>
          (natOfDigits (intPart ++ fracPart), e - fracPart.length))
  | _ =>
      if intPart = [] then none
      else (parseExponent rest1).map (fun e => (natOfDigits intPart, e))

/-- The rational `± m * 10 ^ e` for a natural mantissa and an integer
decimal exponent. -/
def ratOfSci (neg : Bool) (m : ℕ) (e : ℤ) : ℚ :=
  match e with
  | .ofNat n => mkRat (if neg then -((m * 10 ^ n : ℕ) : ℤ) else ((m * 10 ^ n : ℕ) : ℤ)) 1
  | .negSucc n => mkRat (if neg then -(m : ℤ) else (m : ℤ)) (10 ^ (n + 1))

/-- Radix literal body (`0x…`, `0o…`, `0b…`): a non-empty run of digits of
the base, no sign and no exponent. -/
def parseRadix (base : ℕ) (isDig : Char → Bool) (valOf : Char → ℕ) (ds : List Char) : JSNum :=
  if ds ≠ [] ∧ ds.all isDig then
    clampDouble (mkRat ((ds.foldl (fun acc c => acc * base + valOf c) 0 : ℕ) : ℤ) 1)
  else .nan

/-- Hexadecimal digit test. -/
def isHexDigitCh (c : Char) : Bool :=
  ('0' ≤ c ∧ c ≤ '9') ∨ ('a' ≤ c ∧ c ≤ 'f') ∨ ('A' ≤ c ∧ c ≤ 'F')

/-- Hexadecimal digit value. -/
def hexValCh (c : Char) : ℕ :=
  if '0' ≤ c ∧ c ≤ '9' then c.toNat - 48
  else if 'a' ≤ c ∧ c ≤ 'f' then c.toNat - 87
  else c.toNat - 55

/-- Octal digit test. -/
def isOctDigitCh (c : Char) : Bool :=
  '0' ≤ c ∧ c ≤ '7'

/-- Binary digit test. -/
def isBinDigitCh (c : Char) : Bool :=
  c = '0' ∨ c = '1'

/-- Signless decimal-or-Infinity branch of `Number` on strings. -/
def jsUnsignedDecimal (cs : List Char) (neg : Bool) : JSNum :=
  if cs = "Infinity".toList then (if neg then .negInf else .posInf)
  else
    match parseDecimal cs with
    | some (m, e) => clampDouble (ratOfSci neg m e)
    | none => .nan

/-- Optional sign followed by the unsigned branch. -/
def jsSignedDecimal (cs : List Char) : JSNum :=
  match cs with
  | '+' :: rest => jsUnsignedDecimal rest false
  | '-' :: rest => jsUnsignedDecimal rest true
  | _ => jsUnsignedDecimal cs false

/-- Top level of the `Number` conversion of a trimmed character list. -/
def jsNumberOfChars (cs : List Char) : JSNum :=
  match cs with
  | [] => .val 0
  | '0' :: x :: ds =>
      if x = 'x' ∨ x = 'X' then parseRadix 16 isHexDigitCh hexValCh ds
      else if x = 'o' ∨ x = 'O' then parseRadix 8 isOctDigitCh (fun c => c.toNat - 48) ds
      else if x = 'b' ∨ x = 'B' then parseRadix 2 isBinDigitCh (fun c => c.toNat - 48) ds
      else jsSignedDecimal ('0' :: x :: ds)
  | _ => jsSignedDecimal cs

/-- JavaScript `Number(s)` for a string argument. -/
def jsNumberOfString (s : String) : JSNum :=
  jsNumberOfChars (jsTrimChars s.toList)

/-- JavaScript `Number(v)` for a possibly-absent JSON value.
`Number(undefined)` is `NaN`, `Number(null)` is `0`, booleans map to `0`
and `1`, strings go through the string grammar.  The `ToPrimitive`
coercion of objects and of non-empty arrays is approximated by `NaN`
(the empty array coerces through `""` to `0`); no claim below evaluates a
non-empty array or object here. -/
def jsNumberOfJVal : Option JVal → JSNum
  | none => .nan
  | some .jNull => .val 0
  | some (.jBool b) => .val (if b then 1 else 0)
  | some (.jNum q) => .val q
  | some (.jStr s) => jsNumberOfString s
  | some (.jArr []) => .val 0
  | some (.jArr (_ :: _)) => .nan
  | some (.jObj _) => .nan

/-- Client-side status of an upload job (`UploadProcessStatus` in
`FileUploader.tsx`). -/
inductive UploadProcessStatus where
  | in_progress
  | completed
  | error
deriving DecidableEq, Repr

/-- ASCII lower-casing of one character, as `toLowerCase` acts on the
ASCII range (every token the normaliser compares against is ASCII). -/
def jsToLowerChar (c : Char) : Char :=
  if 'A' ≤ c ∧ c ≤ 'Z' then Char.ofNat (c.toNat + 32) else c

/-- JavaScript `s.toLowerCase()` restricted to ASCII case mapping. -/
def jsToLower (s : String) : String :=
  String.mk (s.toList.map jsToLowerChar)

/-- String branch of `normalizeApiStatus` for a present status token. -/
def normalizeApiStatusStr (s : String) : UploadProcessStatus :=
  if s = "" then .in_progress
  else if jsToLower s = "completed" ∨ jsToLower s = "finished" ∨ jsToLower s = "done" then
    .completed
  else if jsToLower s ∈ ["error", "failed", "failed_with_errors", "cancelled"] then
    .error
  else .in_progress

/-- Source: `FileUploader.tsx`, `normalizeApiStatus` (lines 167–177).
Absent, null and empty statuses are falsy and return `in_progress`; the
lowered string is compared against the completed and error token lists;
anything else returns `in_progress`. -/
def normalizeApiStatus (status : Option String) : UploadProcessStatus :=
  match status with
  | none => .in_progress
  | some s => normalizeApiStatusStr s

/-- Source: the `UploadProcess` record of `FileUploader.tsx` (lines
25–35).  `stage`/`message` conflate the JavaScript `null` and `undefined`
into `none`; `percentage` is a finite double. -/
structure UploadProcess where
  processingId : String
  collectionName : String
  sourceUrl : String
  status : UploadProcessStatus
  percentage : ℚ
  stage : Option String
  message : Option String
  notificationId : Option String
  lastUpdated : String
deriving DecidableEq, Repr

/-- Partial update merged into a stored process by
`setProcesses((prev) => prev.map(... {...item, ...updates[id]} ...))`:
a `none` field is absent from the update object and keeps the stored
value.  The inner `Option String` of `stage`/`message` distinguishes an
explicit `null` from a kept field. -/
structure ProcessUpdate where
  status : Option UploadProcessStatus
  percentage : Option ℚ
  stage : Option (Option String)
  message : Option (Option String)
  lastUpdated : Option String
deriving DecidableEq, Repr

/-- Object spread `{...item, ...u}`: fields present in `u` override. -/
def applyUpdate (item : UploadProcess) (u : ProcessUpdate) : UploadProcess :=
  { item with
    status := u.status.getD item.status
    percentage := u.percentage.getD item.percentage
    stage := u.stage.getD item.stage
    message := u.message.getD item.message
    lastUpdated := u.lastUpdated.getD item.lastUpdated }

/-- Successful-fetch payload of one status poll, as read by
`pollStatuses` (`data` after `res.json()`).  `success` is `some b` when
the JSON field is the boolean `b` and `none` otherwise, so the strict
comparisons `data?.success === false` / `=== true` become equality with
`some false` / `some true`.  `progressPercentage` is
`Number(data?.data?.progress?.percentage)` with `none` for `NaN`. -/
structure PollResponse where
  success : Option Bool
  status : Option String
  progressPercentage : Option ℚ
  progressStage : Option String
  message : Option String
  errorMsg : Option String
deriving DecidableEq, Repr

/-- Outcome of one per-job fetch: a parsed body, or a rejected promise
(network/transport error) carrying `error.message`. -/
inductive PollResult where
  | ok (data : PollResponse)
  | transportError (emsg : String)
deriving DecidableEq, Repr

/-- JavaScript `a ?? b` on optional strings (`??` keeps a falsy `""`). -/
def jsCoalesce (a b : Option String) : Option String :=
  match a with
  | some s => some s
  | none => b

/-- JavaScript `a || b` on optional strings: an empty string is falsy. -/
def jsOrStr (a b : Option String) : Option String :=
  match a with
  | some s => if s = "" then b else some s
  | none => b

/-- Source: `pollStatuses`, success path (FileUploader.tsx lines
440–477): percentage is `Number(...) || 0`; the error branch fires when
`data?.success === false` or the normalised status is `error`; the
completed branch fires when the normalised status is `completed` or
(`data?.success === true` and the percentage is at least 100), forcing
the stored percentage to 100; otherwise the progress fields are merged
and the status key is absent from the update. -/
def pollSuccessUpdate (process : UploadProcess) (data : PollResponse) (now : String) :
    ProcessUpdate :=
  let percentage : ℚ := data.progressPercentage.getD 0
  let stage : Option String := jsCoalesce data.progressStage process.stage
  let message : Option String := jsCoalesce data.message process.message
  let statusFromApi := normalizeApiStatus data.status
  if data.success = some false ∨ statusFromApi = .error then
    { status := some .error, percentage := some percentage, stage := some stage,
      message := some (jsOrStr data.errorMsg (jsOrStr data.message message)),
      lastUpdated := some now }
  else if statusFromApi = .completed ∨ (data.success = some true ∧ 100 ≤ percentage) then
    { status := some .completed, percentage := some 100, stage := some stage,
      message := some message, lastUpdated := some now }
  else
    { status := none, percentage := some percentage, stage := some stage,
      message := some message, lastUpdated := some now }

/-- Warning text of the transport-failure branch (template literal in the
catch block of `pollStatuses`). -/
def transportWarningMessage (emsg : String) : String :=
  "No se pudo verificar el estado del procesamiento: " ++ emsg

/-- Source: `pollStatuses`, catch branch (lines 479–494): the update
object has no `status` key, repeats the current stage and percentage and
stores the warning text. -/
def pollUpdate (process : UploadProcess) (result : PollResult) (now : String) : ProcessUpdate :=
  match result with
  | .ok data => pollSuccessUpdate process data now
  | .transportError emsg =>
      { status := none, stage := some process.stage,
        percentage := some process.percentage,
        message := some (some (transportWarningMessage emsg)),
        lastUpdated := some now }

/-- The process as stored after one poll of it: the per-job update merged
into the previous record. -/
def pollMerged (process : UploadProcess) (result : PollResult) (now : String) : UploadProcess :=
  applyUpdate process (pollUpdate process result now)

/-- Notification severity levels of the NotificationContext. -/
inductive NotificationType where
  | success
  | error
  | warning
  | info
  | processing
deriving DecidableEq, Repr

/-- Payload of an `addNotification` call.  Modelled from the spec:
`NotificationContext.tsx` is not part of the sources, and per the spec's
Notification Bridge contract `autoClose := true` is an auto-dismissing
(ephemeral) notification while `autoClose := false` is persistent until
manually dismissed. -/
structure AppNotification where
  ntype : NotificationType
  title : String
  message : String
  processingId : Option String
  autoClose : Bool
deriving DecidableEq, Repr

/-- Source: the `addNotificationRef.current({type: "warning", ...})` call
in the catch branch of `pollStatuses` (lines 481–487). -/
def pollFailureNotification (process : UploadProcess) (emsg : String) : AppNotification :=
  { ntype := .warning
    title := "Error de Red"
    message := transportWarningMessage emsg
    processingId := some process.processingId
    autoClose := false }

/-- Notifications appended (`addNotification`) while handling one job's
poll result: only the transport-failure branch adds one. -/
def pollEmittedNotifications (process : UploadProcess) (result : PollResult) :
    List AppNotification :=
  match result with
  | .ok _ => []
  | .transportError emsg => [pollFailureNotification process emsg]

/-- Source: `listActive` of the spec / the
`processesRef.current.filter((item) => item.status === "in_progress")`
selection at the top of `pollStatuses` (and `hasActiveProcesses`). -/
def listActive (ps : List UploadProcess) : List UploadProcess :=
  ps.filter (fun item => decide (item.status = .in_progress))

/-- The job identifiers of the stored processes, in order. -/
def storeIds (ps : List UploadProcess) : List String :=
  ps.map (fun p => p.processingId)

/-- First-match association lookup for the per-tick `updates` record.
Under the store's unique-id invariant each key occurs at most once, so
first-match agrees with the JavaScript object keyed by `processingId`. -/
def findUpdate (pid : String) : List (String × ProcessUpdate) → Option ProcessUpdate
  | [] => none
  | (k, u) :: rest => if k = pid then some u else findUpdate pid rest

/-- The per-tick `updates` record: one entry per active process, keyed by
its id, each computed from that process's fetch outcome `resp`. -/
def tickUpdates (ps : List UploadProcess) (resp : String → PollResult) (now : String) :
    List (String × ProcessUpdate) :=
  (listActive ps).map (fun p => (p.processingId, pollUpdate p (resp p.processingId) now))

/-- Image of one stored item under the end-of-tick merge
(`updates[item.processingId] ? {...item, ...updates[...]} : item`). -/
def tickLookup (ps : List UploadProcess) (resp : String → PollResult) (now : String)
    (item : UploadProcess) : UploadProcess :=
  match findUpdate item.processingId (tickUpdates ps resp now) with
  | some u => applyUpdate item u
  | none => item

/-- Source: the whole `pollStatuses` tick (lines 421–513): statuses of
all active jobs are fetched and the resulting updates are merged into the
store as one batch. -/
def applyTick (ps : List UploadProcess) (resp : String → PollResult) (now : String) :
    List UploadProcess :=
  ps.map (tickLookup ps resp now)

/-- End-of-tick merge applied to an explicit update record (the
`setProcesses` functional update at lines 499–512 taken on its own). -/
def mergeUpdates (ps : List UploadProcess) (us : List (String × ProcessUpdate)) :
    List UploadProcess :=
  ps.map (fun item =>
    match findUpdate item.processingId us with
    | some u => applyUpdate item u
    | none => item)

/-- Source: `handleSubmit` (lines 281–286): the previous entry with the
same id is filtered out and the new process is placed at the front. -/
def addProcess (newProcess : UploadProcess) (prev : List UploadProcess) :
    List UploadProcess :=
  newProcess :: prev.filter (fun item => decide (item.processingId ≠ newProcess.processingId))

/-- Source: `handleRemoveProcess` (lines 376–380). -/
def removeProcess (processId : String) (prev : List UploadProcess) : List UploadProcess :=
  prev.filter (fun item => decide (item.processingId ≠ processId))

/-- A job is never polled again: it is in no active selection, and under
the unique-id invariant every subsequent tick maps its record to itself. -/
def excludedFromPolling (q : UploadProcess) : Prop :=
  (∀ ps, q ∉ listActive ps) ∧
  (∀ ps resp now, q ∈ ps → (storeIds ps).Nodup → tickLookup ps resp now q = q)

/-- Persisted spelling of a client-side status. -/
def statusToString : UploadProcessStatus → String
  | .in_progress => "in_progress"
  | .completed => "completed"
  | .error => "error"

/-- Source: the persistence effect (lines 129–140) serialises the store
with `JSON.stringify(processes)`: every field is written, `stage` and
`message` as `null` when absent, `notificationId` omitted when
`undefined`, keys in object-literal order. -/
def serializeProcess (p : UploadProcess) : JVal :=
  .jObj ([("processingId", .jStr p.processingId),
          ("collectionName", .jStr p.collectionName),
          ("sourceUrl", .jStr p.sourceUrl),
          ("status", .jStr (statusToString p.status)),
          ("percentage", .jNum p.percentage),
          ("stage", match p.stage with | some s => .jStr s | none => .jNull),
          ("message", match p.message with | some s => .jStr s | none => .jNull)] ++
         (match p.notificationId with
          | some n => [("notificationId", JVal.jStr n)]
          | none => []) ++
         [("lastUpdated", .jStr p.lastUpdated)])

/-- What sits under the `url_uploader_processes` localStorage key:
absent (`getItem` returns null, or the empty store removed the key), a
string `JSON.parse` rejects, or a string parsing to a JSON value. -/
inductive StoredValue where
  | absent
  | corrupt
  | value (v : JVal)

/-- Source: the persistence effect (lines 129–140): an empty store
removes the key, otherwise the serialised array is written. -/
def persistProcesses (ps : List UploadProcess) : StoredValue :=
  match ps with
  | [] => .absent
  | _ => .value (.jArr (ps.map serializeProcess))

/-- Runtime behaviour of `normalizeApiStatus(item.status)` on an
arbitrary JSON field: falsy values (absent, `null`, `false`, `0`, `""`)
short-circuit to `in_progress`; a non-empty string is normalised; every
truthy non-string value reaches `status.toLowerCase()` and throws a
`TypeError` (modelled as `Except.error`). -/
def loadStatusField : Option JVal → Except Unit UploadProcessStatus
  | none => .ok .in_progress
  | some .jNull => .ok .in_progress
  | some (.jBool false) => .ok .in_progress
  | some (.jBool true) => .error ()
  | some (.jNum q) => if q = 0 then .ok .in_progress else .error ()
  | some (.jStr s) => .ok (normalizeApiStatus (some s))
  | some (.jArr _) => .error ()
  | some (.jObj _) => .error ()

/-- The loaded percentage: `Number(item.percentage)` kept when finite,
else `0` (lines 99–102). -/
def loadPercentageField (f : Option JVal) : ℚ :=
  match jsNumberOfJVal f with
  | .val q => q
  | _ => 0

/-- Conversion `String(x)` where `x` may be absent: `String(undefined)`
is the string `"undefined"`. -/
def jsStringOfField : Option JVal → String
  | none => "undefined"
  | some v => jsStringOfJVal v

/-- Conversion `String(x ?? "")`. -/
def jsStringOrEmpty : Option JVal → String
  | none => ""
  | some .jNull => ""
  | some v => jsStringOfJVal v

/-- Field read `x ?? null` into an optional string; a non-string JSON value is
kept, rendered through `String` (the claims never exercise that case). -/
def optStringField : Option JVal → Option String
  | none => none
  | some .jNull => none
  | some (.jStr s) => some s
  | some v => some (jsStringOfJVal v)

/-- Source: the element mapping of the `processes` state initialiser
(lines 93–107).  Field accesses on a non-object element yield
`undefined`.  Only the status access can throw. -/
def loadItem (now : String) (item : JVal) : Except Unit UploadProcess :=
  match loadStatusField (jGet item "status") with
  | .error e => .error e
  | .ok status =>
    .ok
    { processingId := jsStringOfField (jGet item "processingId")
      collectionName := jsStringOrEmpty (jGet item "collectionName")
      sourceUrl := jsStringOrEmpty (jGet item "sourceUrl")
      status := status
      percentage := loadPercentageField (jGet item "percentage")
      stage := optStringField (jGet item "stage")
      message := optStringField (jGet item "message")
      notificationId :=
        (match jGet item "notificationId" with
         | none => none
         | some .jNull => none
         | some (.jStr s) => some s
         | some v => some (jsStringOfJVal v))
      lastUpdated :=
        (match jGet item "lastUpdated" with
         | none => now
         | some .jNull => now
         | some (.jStr s) => s
         | some v => jsStringOfJVal v) }

/-- Element-wise `parsed.map(...)` with exception propagation: the first throwing
element aborts the whole map (the surrounding `try` catches it). -/
def loadItems (now : String) : List JVal → Except Unit (List UploadProcess)
  | [] => .ok []
  | v :: vs =>
    match loadItem now v with
    | .error e => .error e
    | .ok p =>
      match loadItems now vs with
      | .error e => .error e
      | .ok ps => .ok (p :: ps)

/-- Source: the `processes` state initialiser (lines 81–113): a missing
key or unparseable string yields `[]`; a parsed non-array yields `[]`; an
array is mapped element-wise and then filtered to truthy (non-empty)
`processingId`s; any exception during the mapping makes the whole
initialiser return `[]` through the catch. -/
def loadStored (now : String) (stored : StoredValue) : List UploadProcess :=
  match stored with
  | .absent => []
  | .corrupt => []
  | .value (.jArr items) =>
      (match loadItems now items with
       | .ok ps => ps.filter (fun p => decide (p.processingId ≠ ""))
       | .error _ => [])
  | .value _ => []

/-- Source: `hasActiveProcesses` (lines 407–410). -/
def hasActiveProcesses (ps : List UploadProcess) : Bool :=
  ps.any (fun item => decide (item.status = .in_progress))

/-- The Poller's two states. -/
inductive PollerState where
  | Idle
  | Polling
deriving DecidableEq, Repr

/-- Source: the polling effect (lines 412–419 and 515–524): after each
change of the store, the interval timer runs exactly when
`hasActiveProcesses` holds — it is cleared when no process is active and
started otherwise. -/
def pollerStateFor (ps : List UploadProcess) : PollerState :=
  if hasActiveProcesses ps then .Polling else .Idle

/-- Character class of the collection-name pattern `^[a-zA-Z0-9_-]+$`. -/
def isCollectionChar (c : Char) : Bool :=
  ('a' ≤ c ∧ c ≤ 'z') ∨ ('A' ≤ c ∧ c ≤ 'Z') ∨ ('0' ≤ c ∧ c ≤ '9') ∨ c = '_' ∨ c = '-'

/-- Test `COLLECTION_REGEX.test(s)` for a non-empty match of
`^[a-zA-Z0-9_-]+$`, with the preceding `item &&` truthiness guard folded
in (the empty string fails the regex anyway). -/
def validCollectionName (s : String) : Bool :=
  !s.isEmpty && s.toList.all isCollectionChar

/-- Source: `normalizeCollectionNames` (ConfigurationPanel.tsx lines
40–65), the candidate selection: the first array among the payload
itself, `payload?.data`, `payload?.collections` and
`payload?.data?.collections`. -/
def selectedArray (payload : JVal) : Option (List JVal) :=
  [some payload, jGet payload "data", jGet payload "collections",
   (jGet payload "data").bind (fun d => jGet d "collections")].findSome?
    (fun c =>
      match c with
      | some (.jArr items) => some items
      | _ => none)

/-- Source: the element mapping of `normalizeCollectionNames` (lines
52–61): a string is trimmed; an object whose `name` is a string yields
the trimmed name; anything else yields `null` (dropped downstream). -/
def extractName (item : JVal) : Option String :=
  match item with
  | .jStr s => some (jsTrim s)
  | .jObj _ =>
      (match jGet item "name" with
       | some (.jStr n) => some (jsTrim n)
       | _ => none)
  | _ => none

/-- The mapped entries of the selected candidate array, nulls dropped. -/
def extractedNames (payload : JVal) : List String :=
  ((selectedArray payload).getD []).filterMap extractName

/-- Order-preserving de-duplication keeping first occurrences
(`Array.from(new Set(items))`). -/
def dedupFirstAux (seen : List String) : List String → List String
  | [] => []
  | x :: xs =>
      if x ∈ seen then dedupFirstAux seen xs
      else x :: dedupFirstAux (x :: seen) xs

/-- De-duplication `Array.from(new Set(items))`. -/
def dedupFirst (items : List String) : List String :=
  dedupFirstAux [] items

/-- Source: `normalizeCollectionNames` assembled: select a candidate
array, map to trimmed names, filter by the collection-name pattern,
de-duplicate preserving first occurrences. -/
def normalizeCollectionNames (payload : JVal) : List String :=
  dedupFirst ((extractedNames payload).filter validCollectionName)

/-- Built-in default of `APP_CONFIG.DEFAULT_TOP_K` (appConfig.ts line 50). -/
def APP_CONFIG_DEFAULT_TOP_K : ℚ := 5

/-- Source: the module-load seeding of `DEFAULT_TOP_K` (appConfig.ts
lines 96–102): a missing or empty stored string is skipped by the
truthiness guard; otherwise the stored string is converted with `Number`
and overrides the current value only when finite and strictly positive. -/
def seedDefaultTopKStr (current : ℚ) (s : String) : ℚ :=
  if s = "" then current
  else
    match jsNumberOfString s with
    | .val q => if 0 < q then q else current
    | _ => current

/-- Seeding entry point: `getItem` returning null skips the block. -/
def seedDefaultTopK (current : ℚ) (stored : Option String) : ℚ :=
  match stored with
  | none => current
  | some s => seedDefaultTopKStr current s

/-- Source: the progress bar width (line 945) and the percent label
(line 949) both render `Math.min(process.percentage, 100)` — there is an
upper clamp but no lower one. -/
def renderedPercentage (process : UploadProcess) : ℚ :=
  min process.percentage 100

/-- Store states reachable through the component's own operations from
the empty store: submissions, poll ticks, single removals, clearing, and
a reload of the component's own persisted data. -/
inductive ReachableStore : List UploadProcess → Prop where
  | init : ReachableStore []
  | submit (p : UploadProcess) (ps : List UploadProcess) :
      ReachableStore ps → ReachableStore (addProcess p ps)
  | tick (ps : List UploadProcess) (resp : String → PollResult) (now : String) :
      ReachableStore ps → ReachableStore (applyTick ps resp now)
  | removeOne (pid : String) (ps : List UploadProcess) :
      ReachableStore ps → ReachableStore (removeProcess pid ps)
  | clearAll (ps : List UploadProcess) :
      ReachableStore ps → ReachableStore []
  | reload (now : String) (ps : List UploadProcess) :
      ReachableStore ps → ReachableStore (loadStored now (persistProcesses ps))


/-- Concrete in-progress job used by the rendering counterexample. -/
def procC3 : UploadProcess :=
  { processingId := "abc123", collectionName := "docs",
    sourceUrl := "https://ex.com/doc.pdf", status := .in_progress,
    percentage := 0, stage := some "document_download", message := none,
    notificationId := some "n1", lastUpdated := "t0" }

/-- Concrete poll body reporting a negative percentage. -/
def dataC3 : PollResponse :=
  { success := some true, status := some "document_processing",
    progressPercentage := some (-5), progressStage := some "document_processing",
    message := none, errorMsg := none }

/-- Concrete poll body with the success flag false. -/
def dataC1 : PollResponse :=
  { success := some false, status := some "processing",
    progressPercentage := some 40, progressStage := none,
    message := some "backend rejected", errorMsg := some "boom" }

/-- Concrete update record used by the C6 witness. -/
def updC6 : ProcessUpdate :=
  { status := some .completed, percentage := some 100, stage := none,
    message := none, lastUpdated := some "t9" }

/-- Well-formed persisted record used by the persistence counterexample. -/
def goodItemC4 : JVal :=
  .jObj [("processingId", .jStr "abc123"), ("collectionName", .jStr "docs"),
         ("sourceUrl", .jStr "https://ex.com"), ("status", .jStr "in_progress"),
         ("percentage", .jNum 42), ("stage", .jNull), ("message", .jNull),
         ("lastUpdated", .jStr "t0")]

/-- Persisted record whose status field is the number `1` — truthy and
not a string, so `normalizeApiStatus` throws on it at runtime. -/
def badItemC4 : JVal :=
  .jObj [("processingId", .jStr "zzz9"), ("status", .jNum 1)]

theorem hasActive_iff (ps : List UploadProcess) :
    hasActiveProcesses ps = true ↔ 0 < (listActive ps).length := by
  unfold hasActiveProcesses listActive
  rw [← List.countP_eq_length_filter, List.countP_pos_iff, List.any_eq_true]

theorem pollerStateFor_Polling (ps : List UploadProcess) :
    pollerStateFor ps = .Polling ↔ 0 < (listActive ps).length := by
  rw [← hasActive_iff]
  unfold pollerStateFor
  cases h : hasActiveProcesses ps <;> simp [h]

theorem pollerStateFor_Idle (ps : List UploadProcess) :
    pollerStateFor ps = .Idle ↔ (listActive ps).length = 0 := by
  have h := hasActive_iff ps
  unfold pollerStateFor
  cases hb : hasActiveProcesses ps
  · rw [hb] at h
    simp only [Bool.false_eq_true, false_iff, not_lt, Nat.le_zero] at h
    simp [h]
  · rw [hb] at h
    simp only [true_iff] at h
    simp only [if_pos rfl]
    constructor
    · intro hc; exact absurd hc (by decide)
    · intro hc; omega

/-- C2: the status normaliser is total on optional strings, returns only
the three client states, maps the completed and error token lists
case-insensitively, and sends every other input — including an absent
status and the empty string — to `in_progress`. -/
theorem normalizeApiStatus_spec :
    (∀ s : Option String,
        normalizeApiStatus s = .in_progress ∨ normalizeApiStatus s = .completed ∨
          normalizeApiStatus s = .error) ∧
    normalizeApiStatus none = .in_progress ∧
    normalizeApiStatus (some "") = .in_progress ∧
    (∀ s : String, jsToLower s ∈ ["completed", "finished", "done"] →
        normalizeApiStatus (some s) = .completed) ∧
    (∀ s : String, jsToLower s ∈ ["error", "failed", "failed_with_errors", "cancelled"] →
        normalizeApiStatus (some s) = .error) ∧
    (∀ s : String,
        jsToLower s ∉ ["completed", "finished", "done", "error", "failed",
          "failed_with_errors", "cancelled"] →
        normalizeApiStatus (some s) = .in_progress) := by
  refine ⟨?_, rfl, by decide, ?_, ?_, ?_⟩
  · intro s
    rcases h : normalizeApiStatus s with _ | _ | _
    · exact Or.inl rfl
    · exact Or.inr (Or.inl rfl)
    · exact Or.inr (Or.inr rfl)
  · intro s hs
    by_cases hse : s = ""
    · subst hse; exact absurd hs (by decide)
    · show normalizeApiStatusStr s = .completed
      unfold normalizeApiStatusStr
      simp only [List.mem_cons, List.not_mem_nil, or_false] at hs
      rw [if_neg hse, if_pos hs]
  · intro s hs
    by_cases hse : s = ""
    · subst hse; exact absurd hs (by decide)
    · show normalizeApiStatusStr s = .error
      unfold normalizeApiStatusStr
      rw [if_neg hse, if_neg, if_pos hs]
      simp only [List.mem_cons, List.not_mem_nil, or_false] at hs
      rcases hs with h | h | h | h <;> rw [h] <;> decide
  · intro s hs
    by_cases hse : s = ""
    · subst hse; rfl
    · show normalizeApiStatusStr s = .in_progress
      unfold normalizeApiStatusStr
      simp only [List.mem_cons, List.not_mem_nil, or_false, not_or] at hs
      obtain ⟨h1, h2, h3, h4, h5, h6, h7⟩ := hs
      rw [if_neg hse, if_neg (by tauto), if_neg]
      simp only [List.mem_cons, List.not_mem_nil, or_false, not_or]
      tauto

/-- C2 witness: the normaliser evaluated through the theorem at
representative inputs. -/
theorem normalizeApiStatus_spec_witness :
    normalizeApiStatus (some "FAILED_WITH_ERRORS") = .error ∧
    normalizeApiStatus (some "Completed") = .completed ∧
    normalizeApiStatus (some "queued") = .in_progress :=
  ⟨normalizeApiStatus_spec.2.2.2.2.1 "FAILED_WITH_ERRORS" (by decide),
   normalizeApiStatus_spec.2.2.2.1 "Completed" (by decide),
   normalizeApiStatus_spec.2.2.2.2.2 "queued" (by decide)⟩

/-- C3 counterexample: after a successful poll that reports percentage
`-5`, the stored percentage is `-5` and both rendered values
(`Math.min(percentage, 100)`) are `-5`, strictly below `0` — the claim
that the rendered percentage always lies in `[0, 100]` is false. -/
theorem renderedPercentage_below_zero_cex :
    (pollMerged procC3 (.ok dataC3) "t1").percentage = -5 ∧
    renderedPercentage (pollMerged procC3 (.ok dataC3) "t1") = -5 ∧
    ¬ (0 ≤ renderedPercentage (pollMerged procC3 (.ok dataC3) "t1")) := by
  decide

/-- C3 amended: the rendered progress value (bar width and percent label)
is `min percentage 100` — never above 100, exactly 100 for any reported
value of at least 100, and equal to the raw (possibly negative) stored
percentage for any value at most 100; only the upper bound is clamped. -/
theorem renderedPercentage_clamp_spec :
    ∀ process : UploadProcess,
      renderedPercentage process ≤ 100 ∧
      (100 ≤ process.percentage → renderedPercentage process = 100) ∧
      (process.percentage ≤ 100 → renderedPercentage process = process.percentage) := by
  intro p
  exact ⟨min_le_right _ _, fun h => min_eq_right h, fun h => min_eq_left h⟩

/-- C3 witness: the amended theorem applied at a process reporting 137
per cent. -/
theorem renderedPercentage_clamp_spec_witness :
    renderedPercentage { procC3 with percentage := 137 } = 100 :=
  (renderedPercentage_clamp_spec { procC3 with percentage := 137 }).2.1 (by decide)

/-- C8: the Poller's timer runs exactly when the active-job set is
non-empty, so the Idle-to-Polling transition happens exactly when the
active count goes from zero to positive and the Polling-to-Idle
transition exactly when it returns to zero. -/
theorem poller_transition_spec :
    ∀ ps qs : List UploadProcess,
      (pollerStateFor ps = .Polling ↔ 0 < (listActive ps).length) ∧
      ((pollerStateFor ps = .Idle ∧ pollerStateFor qs = .Polling) ↔
        ((listActive ps).length = 0 ∧ 0 < (listActive qs).length)) ∧
      ((pollerStateFor ps = .Polling ∧ pollerStateFor qs = .Idle) ↔
        (0 < (listActive ps).length ∧ (listActive qs).length = 0)) := by
  intro ps qs
  refine ⟨pollerStateFor_Polling ps, ?_, ?_⟩
  · exact and_congr (pollerStateFor_Idle ps) (pollerStateFor_Polling qs)
  · exact and_congr (pollerStateFor_Polling ps) (pollerStateFor_Idle qs)

/-- C8 witness: across the concrete store change from empty to one
active job the machine takes the Idle-to-Polling transition. -/
theorem poller_transition_spec_witness :
    pollerStateFor [] = .Idle ∧ pollerStateFor [procC3] = .Polling :=
  ((poller_transition_spec [] [procC3]).2.1).mpr ⟨by decide, by decide⟩

/-- C10: at module load the stored default top-K string overrides the
built-in default exactly when it is non-empty and `Number` converts it to
a finite, strictly positive value; an absent key, the empty string, and
every non-numeric, non-finite, zero or negative conversion keep the
built-in default unchanged. -/
theorem seedDefaultTopK_spec :
    seedDefaultTopK APP_CONFIG_DEFAULT_TOP_K none = APP_CONFIG_DEFAULT_TOP_K ∧
    seedDefaultTopK APP_CONFIG_DEFAULT_TOP_K (some "") = APP_CONFIG_DEFAULT_TOP_K ∧
    (∀ (s : String) (q : ℚ), jsNumberOfString s = .val q → 0 < q →
        seedDefaultTopK APP_CONFIG_DEFAULT_TOP_K (some s) = q) ∧
    (∀ (s : String) (q : ℚ), jsNumberOfString s = .val q → q ≤ 0 →
        seedDefaultTopK APP_CONFIG_DEFAULT_TOP_K (some s) = APP_CONFIG_DEFAULT_TOP_K) ∧
    (∀ s : String, jsNumberOfString s = .nan →
        seedDefaultTopK APP_CONFIG_DEFAULT_TOP_K (some s) = APP_CONFIG_DEFAULT_TOP_K) ∧
    (∀ s : String, jsNumberOfString s = .posInf →
        seedDefaultTopK APP_CONFIG_DEFAULT_TOP_K (some s) = APP_CONFIG_DEFAULT_TOP_K) ∧
    (∀ s : String, jsNumberOfString s = .negInf →
        seedDefaultTopK APP_CONFIG_DEFAULT_TOP_K (some s) = APP_CONFIG_DEFAULT_TOP_K) := by
  refine ⟨rfl, rfl, ?_, ?_, ?_, ?_, ?_⟩
  · intro s q h hq
    by_cases hse : s = ""
    · subst hse
      have h0 : jsNumberOfString "" = .val 0 := by decide
      rw [h0] at h
      injection h with hq0
      rw [← hq0] at hq
      exact absurd hq (by decide)
    · show seedDefaultTopKStr APP_CONFIG_DEFAULT_TOP_K s = q
      unfold seedDefaultTopKStr
      rw [if_neg hse, h]
      exact if_pos hq
  · intro s q h hq
    by_cases hse : s = ""
    · subst hse; rfl
    · show seedDefaultTopKStr APP_CONFIG_DEFAULT_TOP_K s = APP_CONFIG_DEFAULT_TOP_K
      unfold seedDefaultTopKStr
      rw [if_neg hse, h]
      exact if_neg (not_lt.mpr hq)
  · intro s h
    by_cases hse : s = ""
    · subst hse; rfl
    · show seedDefaultTopKStr APP_CONFIG_DEFAULT_TOP_K s = APP_CONFIG_DEFAULT_TOP_K
      unfold seedDefaultTopKStr
      rw [if_neg hse, h]
  · intro s h
    by_cases hse : s = ""
    · subst hse; rfl
    · show seedDefaultTopKStr APP_CONFIG_DEFAULT_TOP_K s = APP_CONFIG_DEFAULT_TOP_K
      unfold seedDefaultTopKStr
      rw [if_neg hse, h]
  · intro s h
    by_cases hse : s = ""
    · subst hse; rfl
    · show seedDefaultTopKStr APP_CONFIG_DEFAULT_TOP_K s = APP_CONFIG_DEFAULT_TOP_K
      unfold seedDefaultTopKStr
      rw [if_neg hse, h]

/-- C10 witness: the theorem applied at concrete stored strings — a
positive numeric string overrides, a negative and a non-numeric one keep
the built-in default. -/
theorem seedDefaultTopK_spec_witness :
    seedDefaultTopK APP_CONFIG_DEFAULT_TOP_K (some "7") = 7 ∧
    seedDefaultTopK APP_CONFIG_DEFAULT_TOP_K (some "-3") = APP_CONFIG_DEFAULT_TOP_K ∧
    seedDefaultTopK APP_CONFIG_DEFAULT_TOP_K (some "abc") = APP_CONFIG_DEFAULT_TOP_K :=
  ⟨seedDefaultTopK_spec.2.2.1 "7" 7 (by decide) (by decide),
   seedDefaultTopK_spec.2.2.2.1 "-3" (-3) (by decide) (by decide),
   seedDefaultTopK_spec.2.2.2.2.1 "abc" (by decide)⟩

theorem applyUpdate_processingId (p : UploadProcess) (u : ProcessUpdate) :
    (applyUpdate p u).processingId = p.processingId := rfl

theorem findUpdate_eq_none {pid : String} {us : List (String × ProcessUpdate)}
    (h : pid ∉ us.map Prod.fst) : findUpdate pid us = none := by
  induction us with
  | nil => rfl
  | cons kv rest ih =>
    obtain ⟨k, v⟩ := kv
    simp only [List.map_cons, List.mem_cons, not_or] at h
    obtain ⟨h1, h2⟩ := h
    simp only [findUpdate]
    rw [if_neg (fun he => h1 he.symm)]
    exact ih h2

theorem findUpdate_isSome_mem {pid : String} {us : List (String × ProcessUpdate)}
    {u : ProcessUpdate} (h : findUpdate pid us = some u) : pid ∈ us.map Prod.fst := by
  induction us with
  | nil => simp [findUpdate] at h
  | cons kv rest ih =>
    obtain ⟨k, v⟩ := kv
    simp only [findUpdate] at h
    by_cases hk : k = pid
    · simp [hk]
    · rw [if_neg hk] at h
      simp only [List.map_cons, List.mem_cons]
      exact Or.inr (ih h)

theorem mem_listActive {q : UploadProcess} {ps : List UploadProcess} :
    q ∈ listActive ps ↔ q ∈ ps ∧ q.status = .in_progress := by
  unfold listActive
  rw [List.mem_filter]
  simp

/-- A job whose stored status is terminal is excluded from polling: it
never appears in the active selection, and (under the unique-id
invariant) the end-of-tick merge leaves it untouched. -/
theorem terminal_excludedFromPolling {q : UploadProcess}
    (hq : q.status ≠ .in_progress) : excludedFromPolling q := by
  constructor
  · intro ps hmem
    exact hq (mem_listActive.mp hmem).2
  · intro ps resp now hmem hnodup
    unfold tickLookup
    cases hfind : findUpdate q.processingId (tickUpdates ps resp now) with
    | none => rfl
    | some u =>
      exfalso
      have hkey := findUpdate_isSome_mem hfind
      unfold tickUpdates at hkey
      rw [List.map_map] at hkey
      simp only [List.mem_map, Function.comp] at hkey
      obtain ⟨p, hpmem, hpid⟩ := hkey
      obtain ⟨hpin, hpstat⟩ := mem_listActive.mp hpmem
      have hpq : p = q :=
        List.inj_on_of_nodup_map hnodup hpin hmem hpid
      rw [hpq] at hpstat
      exact hq hpstat

/-- C1: for a successful poll response on an in-progress job, taken with
the code's branch priority: if the success flag is the boolean false or
the normalised status is `error`, the merged job is in `error` and
excluded from all subsequent polling; otherwise, if the normalised
status is `completed`, or the success flag is the boolean true and the
reported percentage is at least 100, the merged job is in `completed`
with its stored percentage forced to exactly 100, and is excluded from
all subsequent polling. -/
theorem pollTerminal_spec :
    ∀ (process : UploadProcess) (data : PollResponse) (now : String),
      process.status = .in_progress →
      (((data.success = some false ∨ normalizeApiStatus data.status = .error) →
          (pollMerged process (.ok data) now).status = .error ∧
          excludedFromPolling (pollMerged process (.ok data) now)) ∧
       (¬ (data.success = some false ∨ normalizeApiStatus data.status = .error) →
        (normalizeApiStatus data.status = .completed ∨
            (data.success = some true ∧ 100 ≤ data.progressPercentage.getD 0)) →
          (pollMerged process (.ok data) now).status = .completed ∧
          (pollMerged process (.ok data) now).percentage = 100 ∧
          excludedFromPolling (pollMerged process (.ok data) now))) := by
  intro process data now _hactive
  constructor
  · intro hcond
    have hst : (pollMerged process (.ok data) now).status = .error := by
      show (applyUpdate process (pollSuccessUpdate process data now)).status = .error
      simp only [pollSuccessUpdate]
      rw [if_pos hcond]
      rfl
    refine ⟨hst, terminal_excludedFromPolling ?_⟩
    rw [hst]
    decide
  · intro hncond hcomp
    have hst : (pollMerged process (.ok data) now).status = .completed := by
      show (applyUpdate process (pollSuccessUpdate process data now)).status = .completed
      simp only [pollSuccessUpdate]
      rw [if_neg hncond, if_pos hcomp]
      rfl
    have hpct : (pollMerged process (.ok data) now).percentage = 100 := by
      show (applyUpdate process (pollSuccessUpdate process data now)).percentage = 100
      simp only [pollSuccessUpdate]
      rw [if_neg hncond, if_pos hcomp]
      rfl
    refine ⟨hst, hpct, terminal_excludedFromPolling ?_⟩
    rw [hst]
    decide

/-- C1 witness: the theorem applied at a concrete in-progress job and a
response whose success flag is false. -/
theorem pollTerminal_spec_witness :
    (pollMerged procC3 (.ok dataC1) "t2").status = .error :=
  ((pollTerminal_spec procC3 dataC1 "t2" rfl).1 (Or.inl rfl)).1

/-- C7 counterexample: the notification appended on a transport failure
is warning-level but created with `autoClose: false`, i.e. persistent —
the claim that an ephemeral (auto-dismissing) notification is appended is
false at this concrete input. -/
theorem pollTransportWarning_not_ephemeral_cex :
    pollEmittedNotifications procC3 (.transportError "connection refused") =
      [pollFailureNotification procC3 "connection refused"] ∧
    (pollFailureNotification procC3 "connection refused").ntype = .warning ∧
    ¬ ((pollFailureNotification procC3 "connection refused").autoClose = true) := by
  decide

/-- C7 amended: on a per-tick transport failure for an in-progress job,
the job's status field is unchanged (it stays `in_progress`, so it is
selected and polled again on every subsequent tick), the failure is not
terminal, and a warning-level persistent (not auto-dismissed)
notification describing the network error is appended. -/
theorem pollTransportFailure_spec :
    ∀ (process : UploadProcess) (emsg now : String),
      process.status = .in_progress →
      (pollMerged process (.transportError emsg) now).status = process.status ∧
      (pollMerged process (.transportError emsg) now).status = .in_progress ∧
      (pollMerged process (.transportError emsg) now).percentage = process.percentage ∧
      pollEmittedNotifications process (.transportError emsg) =
        [pollFailureNotification process emsg] ∧
      (pollFailureNotification process emsg).ntype = .warning ∧
      (pollFailureNotification process emsg).message = transportWarningMessage emsg ∧
      (pollFailureNotification process emsg).autoClose = false ∧
      (∀ (ps : List UploadProcess) (resp : String → PollResult) (t : String),
        pollMerged process (.transportError emsg) now ∈ ps →
        (pollMerged process (.transportError emsg) now).processingId ∈
          (tickUpdates ps resp t).map Prod.fst) := by
  intro process emsg now hactive
  have hst : (pollMerged process (.transportError emsg) now).status = process.status := rfl
  refine ⟨hst, hst.trans hactive, rfl, rfl, rfl, rfl, rfl, ?_⟩
  intro ps resp t hmem
  unfold tickUpdates
  rw [List.map_map]
  simp only [List.mem_map, Function.comp]
  exact ⟨_, mem_listActive.mpr ⟨hmem, hst.trans hactive⟩, rfl⟩

/-- C7 witness: the amended theorem applied at a concrete in-progress
job and transport error. -/
theorem pollTransportFailure_spec_witness :
    (pollMerged procC3 (.transportError "ECONNRESET") "t3").status = .in_progress :=
  (pollTransportFailure_spec procC3 "ECONNRESET" "t3" rfl).2.1

/-- C6: a store update keyed by an absent id is a no-op, removing an
absent id is a no-op, and the end-of-tick merge never changes the set of
stored ids — so a late poll result for a removed job is discarded and
never reinserts it. -/
theorem storeAbsentId_noop_spec :
    (∀ (pid : String) (u : ProcessUpdate) (ps : List UploadProcess),
        pid ∉ storeIds ps → mergeUpdates ps [(pid, u)] = ps) ∧
    (∀ (pid : String) (ps : List UploadProcess),
        pid ∉ storeIds ps → removeProcess pid ps = ps) ∧
    (∀ (ps : List UploadProcess) (us : List (String × ProcessUpdate)),
        storeIds (mergeUpdates ps us) = storeIds ps) := by
  refine ⟨?_, ?_, ?_⟩
  · intro pid u ps h
    induction ps with
    | nil => rfl
    | cons p rest ih =>
      unfold storeIds at h
      simp only [List.map_cons, List.mem_cons, not_or] at h
      obtain ⟨h1, h2⟩ := h
      unfold mergeUpdates
      simp only [List.map_cons]
      have hfind : findUpdate p.processingId [(pid, u)] = none := by
        simp only [findUpdate]
        rw [if_neg h1]
      rw [hfind]
      exact congrArg (p :: ·) (ih h2)
  · intro pid ps h
    apply List.filter_eq_self.mpr
    intro a ha
    unfold storeIds at h
    simp only [List.mem_map, not_exists, not_and] at h
    have := h a ha
    simp [this]
  · intro ps us
    induction ps with
    | nil => rfl
    | cons p rest ih =>
      unfold mergeUpdates storeIds at ih ⊢
      simp only [List.map_cons]
      rw [ih]
      congr 1
      cases findUpdate p.processingId us with
      | some u => rfl
      | none => rfl

/-- C6 witness: the theorem applied at a concrete store with the absent
id `"zzz"`. -/
theorem storeAbsentId_noop_spec_witness :
    mergeUpdates [procC3] [("zzz", updC6)] = [procC3] ∧
    removeProcess "zzz" [procC3] = [procC3] :=
  ⟨storeAbsentId_noop_spec.1 "zzz" updC6 [procC3] (by decide),
   storeAbsentId_noop_spec.2.1 "zzz" [procC3] (by decide)⟩

theorem storeIds_mergeUpdates (ps : List UploadProcess)
    (us : List (String × ProcessUpdate)) :
    storeIds (mergeUpdates ps us) = storeIds ps := by
  induction ps with
  | nil => rfl
  | cons p rest ih =>
    unfold mergeUpdates storeIds at ih ⊢
    simp only [List.map_cons]
    rw [ih]
    congr 1
    cases findUpdate p.processingId us with
    | some u => rfl
    | none => rfl

theorem applyTick_eq_mergeUpdates (ps : List UploadProcess)
    (resp : String → PollResult) (now : String) :
    applyTick ps resp now = mergeUpdates ps (tickUpdates ps resp now) := rfl

theorem loadItem_serializeProcess (now : String) (p : UploadProcess) :
    loadItem now (serializeProcess p) = .ok p := by
  obtain ⟨pid, cn, su, st, pc, sg, ms, ni, lu⟩ := p
  cases st <;> cases sg <;> cases ms <;> cases ni <;> rfl

theorem loadItems_serialize (now : String) (ps : List UploadProcess) :
    loadItems now (ps.map serializeProcess) = .ok ps := by
  induction ps with
  | nil => rfl
  | cons p rest ih =>
    simp only [List.map_cons, loadItems]
    rw [loadItem_serializeProcess, ih]

/-- Reloading the component's own persisted store recovers exactly the
records whose id is truthy (non-empty). -/
theorem loadStored_persist (now : String) (ps : List UploadProcess) :
    loadStored now (persistProcesses ps) =
      ps.filter (fun p => decide (p.processingId ≠ "")) := by
  cases ps with
  | nil => rfl
  | cons p rest =>
    have hred : loadStored now (.value (.jArr ((p :: rest).map serializeProcess))) =
        (match loadItems now ((p :: rest).map serializeProcess) with
         | Except.ok qs => qs.filter (fun q => decide (q.processingId ≠ ""))
         | Except.error _ => []) := rfl
    show loadStored now (.value (.jArr ((p :: rest).map serializeProcess))) = _
    rw [hred, loadItems_serialize]

theorem storeIds_filter_nodup {ps : List UploadProcess}
    (h : (storeIds ps).Nodup) (f : UploadProcess → Bool) :
    (storeIds (ps.filter f)).Nodup := by
  unfold storeIds at h ⊢
  exact h.sublist ((List.filter_sublist ps).map (fun p => p.processingId))

theorem storeIds_addProcess_nodup (p : UploadProcess) {ps : List UploadProcess}
    (h : (storeIds ps).Nodup) : (storeIds (addProcess p ps)).Nodup := by
  unfold addProcess storeIds
  simp only [List.map_cons]
  rw [List.nodup_cons]
  constructor
  · intro hmem
    simp only [List.mem_map] at hmem
    obtain ⟨q, hq, hid⟩ := hmem
    have := (List.mem_filter.mp hq).2
    simp only [decide_eq_true_eq] at this
    exact this hid
  · exact storeIds_filter_nodup h _

theorem reachable_storeIds_nodup :
    ∀ ps : List UploadProcess, ReachableStore ps → (storeIds ps).Nodup := by
  intro ps h
  induction h with
  | init => exact List.nodup_nil
  | submit p ps _ ih => exact storeIds_addProcess_nodup p ih
  | tick ps resp now _ ih =>
      rw [applyTick_eq_mergeUpdates, storeIds_mergeUpdates]
      exact ih
  | removeOne pid ps _ ih => exact storeIds_filter_nodup ih _
  | clearAll ps _ _ => exact List.nodup_nil
  | reload now ps _ ih =>
      rw [loadStored_persist]
      exact storeIds_filter_nodup ih _

/-- C5: an add places the new job at the front and leaves exactly one
entry carrying its id, and the unique-id property (no duplicate
`processingId` in the store) holds in every reachable store state — in
particular after every add performed on a reachable store. -/
theorem addProcess_unique_spec :
    (∀ (p : UploadProcess) (ps : List UploadProcess),
        (addProcess p ps).head? = some p ∧
        ((addProcess p ps).filter
            (fun q => decide (q.processingId = p.processingId))).length = 1) ∧
    (∀ ps : List UploadProcess, ReachableStore ps → (storeIds ps).Nodup) := by
  constructor
  · intro p ps
    refine ⟨rfl, ?_⟩
    unfold addProcess
    rw [List.filter_cons_of_pos (by simp)]
    have hnil : (ps.filter
        (fun item => decide (item.processingId ≠ p.processingId))).filter
          (fun q => decide (q.processingId = p.processingId)) = [] := by
      rw [List.filter_eq_nil_iff]
      intro a ha
      have := (List.mem_filter.mp ha).2
      simp only [decide_eq_true_eq] at this ⊢
      exact this
    rw [hnil]
    rfl
  · exact reachable_storeIds_nodup

/-- C5 witness: the theorem applied at a concrete job and the reachable
store obtained by adding it to the empty store. -/
theorem addProcess_unique_spec_witness :
    (addProcess procC3 []).head? = some procC3 ∧
    (storeIds (addProcess procC3 [])).Nodup :=
  ⟨(addProcess_unique_spec.1 procC3 []).1,
   addProcess_unique_spec.2 (addProcess procC3 [])
     (ReachableStore.submit procC3 [] ReachableStore.init)⟩

theorem loadItem_error (now : String) (item : JVal)
    (h : loadStatusField (jGet item "status") = .error ()) :
    loadItem now item = .error () := by
  unfold loadItem
  rw [h]

theorem loadItems_error {now : String} {items : List JVal} {item : JVal}
    (hmem : item ∈ items) (h : loadStatusField (jGet item "status") = .error ()) :
    loadItems now items = .error () := by
  induction items with
  | nil => cases hmem
  | cons v vs ih =>
    have hred : loadItems now (v :: vs) =
        (match loadItem now v with
         | .error e => .error e
         | .ok p =>
           match loadItems now vs with
           | .error e => .error e
           | .ok ps => .ok (p :: ps)) := rfl
    rcases List.mem_cons.mp hmem with heq | hmem2
    · rw [heq] at h
      rw [hred, loadItem_error now v h]
    · rw [hred]
      cases hv : loadItem now v with
      | error e => cases e; rfl
      | ok p => rw [ih hmem2]

theorem loadStored_error_wipes (now : String) (items : List JVal) (item : JVal)
    (hmem : item ∈ items) (h : loadStatusField (jGet item "status") = .error ()) :
    loadStored now (.value (.jArr items)) = [] := by
  have hred : loadStored now (.value (.jArr items)) =
      (match loadItems now items with
       | .ok ps => ps.filter (fun p => decide (p.processingId ≠ ""))
       | .error _ => []) := rfl
  rw [hred, loadItems_error hmem h]

/-- C4 counterexample: the well-formed record loads fine on its own, but
adding one record whose status is a truthy non-string makes the whole
load return the empty list — the malformed field is not defaulted, and
instead of rejecting only that record the entire persisted store is
discarded.  The claim as stated is false at this input. -/
theorem loadStored_whole_load_cex :
    loadStored "t1" (.value (.jArr [goodItemC4])) =
      [{ processingId := "abc123", collectionName := "docs",
         sourceUrl := "https://ex.com", status := .in_progress,
         percentage := 42, stage := none, message := none,
         notificationId := none, lastUpdated := "t0" }] ∧
    loadStored "t1" (.value (.jArr [goodItemC4, badItemC4])) = [] := by
  decide

/-- C4 amended: persisting and reloading recovers the store exactly when
every record has a truthy (non-empty) id; a record's absent, null or
falsy status field defaults to `in_progress` and a non-numeric
percentage defaults to `0`; but a record whose status field is a truthy
non-string JSON value makes the whole load fall back to the empty list
(the initialiser itself never propagates the exception). -/
theorem persistence_roundtrip_spec :
    (∀ (now : String) (ps : List UploadProcess),
        (∀ p ∈ ps, p.processingId ≠ "") →
        loadStored now (persistProcesses ps) = ps) ∧
    (loadStatusField none = .ok .in_progress ∧
     loadStatusField (some .jNull) = .ok .in_progress ∧
     loadStatusField (some (.jStr "")) = .ok .in_progress ∧
     loadStatusField (some (.jBool false)) = .ok .in_progress ∧
     loadStatusField (some (.jNum 0)) = .ok .in_progress) ∧
    (∀ f : Option JVal, jsNumberOfJVal f = .nan → loadPercentageField f = 0) ∧
    (∀ f : Option JVal, jsNumberOfJVal f = .posInf → loadPercentageField f = 0) ∧
    (∀ f : Option JVal, jsNumberOfJVal f = .negInf → loadPercentageField f = 0) ∧
    (∀ (now : String) (items : List JVal) (item : JVal), item ∈ items →
        loadStatusField (jGet item "status") = .error () →
        loadStored now (.value (.jArr items)) = []) := by
  refine ⟨?_, ⟨rfl, rfl, rfl, rfl, rfl⟩, ?_, ?_, ?_, ?_⟩
  · intro now ps h
    rw [loadStored_persist]
    apply List.filter_eq_self.mpr
    intro p hp
    simpa using h p hp
  · intro f h
    unfold loadPercentageField
    rw [h]
  · intro f h
    unfold loadPercentageField
    rw [h]
  · intro f h
    unfold loadPercentageField
    rw [h]
  · intro now items item hmem h
    exact loadStored_error_wipes now items item hmem h

/-- C4 witness: the amended theorem applied at a concrete one-record
store with a non-empty id. -/
theorem persistence_roundtrip_spec_witness :
    loadStored "t5" (persistProcesses [procC3]) = [procC3] :=
  persistence_roundtrip_spec.1 "t5" [procC3] (by decide)

theorem mem_dedupFirstAux (x : String) : ∀ (l seen : List String),
    x ∈ dedupFirstAux seen l ↔ x ∈ l ∧ x ∉ seen := by
  intro l
  induction l with
  | nil =>
    intro seen
    simp [dedupFirstAux]
  | cons a as ih =>
    intro seen
    by_cases ha : a ∈ seen
    · rw [dedupFirstAux, if_pos ha, ih]
      simp only [List.mem_cons]
      constructor
      · rintro ⟨hx, hnx⟩
        exact ⟨Or.inr hx, hnx⟩
      · rintro ⟨hx | hx, hnx⟩
        · exact absurd (by rw [hx]; exact ha) hnx
        · exact ⟨hx, hnx⟩
    · rw [dedupFirstAux, if_neg ha]
      simp only [List.mem_cons, ih, not_or]
      constructor
      · rintro (rfl | ⟨hx, hnx1, hnx2⟩)
        · exact ⟨Or.inl rfl, ha⟩
        · exact ⟨Or.inr hx, hnx2⟩
      · rintro ⟨hx | hx, hns⟩
        · exact Or.inl hx
        · by_cases hxa : x = a
          · exact Or.inl hxa
          · exact Or.inr ⟨hx, hxa, hns⟩

theorem nodup_dedupFirstAux : ∀ (l seen : List String), (dedupFirstAux seen l).Nodup := by
  intro l
  induction l with
  | nil =>
    intro seen
    exact List.nodup_nil
  | cons a as ih =>
    intro seen
    rw [dedupFirstAux]
    by_cases ha : a ∈ seen
    · rw [if_pos ha]
      exact ih seen
    · rw [if_neg ha]
      rw [List.nodup_cons]
      constructor
      · intro hmem
        exact ((mem_dedupFirstAux a as (a :: seen)).mp hmem).2 (List.mem_cons_self a seen)
      · exact ih (a :: seen)

/-- C9: an entry belongs to the normalised collection list exactly when
it is one of the extracted (trimmed) entries of the selected candidate
array and matches the collection-name pattern; the result has no
duplicates; and the nested example payload normalises to the single
valid name. -/
theorem normalizeCollections_spec :
    (∀ (payload : JVal) (s : String),
        s ∈ normalizeCollectionNames payload ↔
          (validCollectionName s = true ∧ s ∈ extractedNames payload)) ∧
    (∀ payload : JVal, (normalizeCollectionNames payload).Nodup) ∧
    normalizeCollectionNames
        (.jObj [("data", .jObj [("collections",
          .jArr [.jObj [("name", .jStr "docs_1")], .jStr "docs 2!"])])]) =
      ["docs_1"] := by
  refine ⟨?_, ?_, by decide⟩
  · intro payload s
    unfold normalizeCollectionNames dedupFirst
    rw [mem_dedupFirstAux]
    simp only [List.not_mem_nil, not_false_iff, and_true]
    rw [List.mem_filter]
    tauto
  · intro payload
    exact nodup_dedupFirstAux _ []

/-- C9 witness: the theorem's no-duplicates part applied at a concrete
payload with a repeated entry. -/
theorem normalizeCollections_spec_witness :
    (normalizeCollectionNames (.jArr [.jStr "a", .jStr "a", .jStr "b!"])).Nodup :=
  normalizeCollections_spec.2.1 (.jArr [.jStr "a", .jStr "a", .jStr "b!"])
